import Mathlib

/-!
Verification development for the hourly-average aggregation engine of the
traffic-stations repository (backend/src/lambdas/api/hourly-average/index.ts,
first revision in the file, lines 1-340, which is the one the specification's
line references point at).

The embedding below translates the TypeScript source into Lean:
JavaScript numbers are modelled as rationals, fallible store calls as
Except values, the module-level memoization caches as explicitly threaded
association lists, and the DynamoDB paginated query as a fuel-bounded
recursion over an explicit page-size parameter.
-/

namespace TrafficStats

/-! ## Calendar arithmetic

The source calls `new Date(year, monthIdx, 31).getDay()` to obtain the
weekday of the last calendar day of March / October.  For a date built from
local calendar components, `getDay` returns the weekday of that calendar
date, which we compute with the standard days-from-civil algorithm. -/

/-- Days count of the civil date (y, m, d) with month `m` in 1..12, counted
from the algorithm's era origin; `rataDie 1970 1 1 = 719468`. -/
def rataDie (y m d : Nat) : Nat :=
  let y' := if m ≤ 2 then y - 1 else y
  let era := y' / 400
  let yoe := y' % 400
  let mp := (m + 9) % 12
  let doy := (153 * mp + 2) / 5 + d - 1
  let doe := yoe * 365 + yoe / 4 - yoe / 100 + doy
  era * 146097 + doe

/-- Weekday of the civil date (y, m, d), with the JavaScript `getDay`
convention: 0 = Sunday, ..., 6 = Saturday. -/
def dayOfWeek (y m d : Nat) : Nat :=
  (rataDie y m d + 3) % 7

example : rataDie 1970 1 1 = 719468 := by decide
example : dayOfWeek 1970 1 1 = 4 := by decide
example : dayOfWeek 2024 3 31 = 0 := by decide
example : dayOfWeek 2024 10 31 = 4 := by decide

/-- Number of days in month `m0` (0-based, JavaScript `getUTCMonth`
convention) of year `y`. -/
def daysInMonth (y m0 : Nat) : Nat :=
  if m0 = 1 then
    if y % 4 = 0 ∧ (y % 100 ≠ 0 ∨ y % 400 = 0) then 29 else 28
  else if m0 = 3 ∨ m0 = 5 ∨ m0 = 8 ∨ m0 = 10 then 30
  else 31

/-! ## The UTC timestamp model

A well-formed ISO-8601 UTC timestamp string determines, via the JavaScript
accessors `getUTCFullYear` / `getUTCMonth` / `getUTCDate` / `getUTCHours`,
the four fields below; they are all the handler ever reads from a
timestamp.  `month` is 0-based exactly as `getUTCMonth` returns it. -/
structure UTCTime where
  year : Nat
  month : Nat
  day : Nat
  hour : Nat
deriving DecidableEq, Repr

/-! ## DST rule and Helsinki hour (source lines 23-75) -/

/-- Core computation of `isDSTForDate` from the source (the cache lookup
around it is modelled separately below).  `month` is 0-based.  The local
name `lastSunday` is kept from the source; note that the formula
`31 - ((getDay + 6) % 7)` it binds actually evaluates to the day of the
last Monday of the month. -/
def isDSTForDate (year month day : Nat) : Bool :=
  if 2 < month ∧ month < 9 then
    true
  else if month = 2 then
    let lastSunday := 31 - ((dayOfWeek year 3 31 + 6) % 7)
    decide (lastSunday ≤ day)
  else if month = 9 then
    let lastSunday := 31 - ((dayOfWeek year 10 31 + 6) % 7)
    decide (day < lastSunday)
  else
    false

/-- Cache-free core of `getHelsinkiHour` from the source: decide DST from
the UTC calendar date, add 3 hours (DST) or 2 hours (standard), read back
the UTC hour of the shifted instant, i.e. add modulo 24. -/
def getHelsinkiHour (t : UTCTime) : Nat :=
  let isDST := isDSTForDate t.year t.month t.day
  let offsetHours := if isDST then 3 else 2
  (t.hour + offsetHours) % 24

/-- Day of the true last Sunday of a 31-day month `m` (1..12 convention)
of year `y`; stated from the claim's words for comparison with the
source's formula. -/
def lastSundayOf (y m : Nat) : Nat :=
  31 - dayOfWeek y m 31

/-- Modelled from the claim's words (not from the source): daylight saving
is in effect for April-September, for March from the day of the true last
Sunday of March on, and for October strictly before the day of the true
last Sunday of October. -/
def isDSTClaimRule (year month day : Nat) : Bool :=
  if 2 < month ∧ month < 9 then true
  else if month = 2 then decide (lastSundayOf year 3 ≤ day)
  else if month = 9 then decide (day < lastSundayOf year 10)
  else false

/-- Modelled from the claim's words (not from the source): the Helsinki
hour under the true last-Sunday DST rule. -/
def helsinkiHourClaimRule (t : UTCTime) : Nat :=
  (t.hour + if isDSTClaimRule t.year t.month t.day then 3 else 2) % 24

example : lastSundayOf 2024 3 = 31 := by decide
example : lastSundayOf 2024 10 = 27 := by decide

/-! ## Host-timezone independence

The only place the source consults the host timezone is
`new Date(year, monthIdx, 31).getDay()`: the Date constructor converts the
local calendar components to a stored UTC instant by subtracting the zone
offset, and `getDay` adds the same offset back before extracting the
weekday.  We model the host zone as a fixed offset in minutes and replay
that round trip on epoch milliseconds. -/

/-- JavaScript `new Date(y, m-1, d).getDay()` on a host whose timezone is
a fixed offset of `tzMin` minutes: local midnight in epoch milliseconds,
shifted to the stored UTC instant, shifted back for reading, floored to a
day count, reduced to a weekday. -/
def jsDateGetDay (tzMin : Int) (y m d : Nat) : Nat :=
  let localMidnightMs : Int := (rataDie y m d : Int) * 86400000
  let storedMs : Int := localMidnightMs - tzMin * 60000
  let readBackMs : Int := storedMs + tzMin * 60000
  ((readBackMs / 86400000 + 3) % 7).toNat

/-- Helper lemma: the construct/read round trip cancels the host offset, so
the weekday the source reads is the pure calendar weekday. -/
theorem jsDateGetDay_eq (tzMin : Int) (y m d : Nat) :
    jsDateGetDay tzMin y m d = dayOfWeek y m d := by
  show ((((rataDie y m d : Int) * 86400000 - tzMin * 60000 + tzMin * 60000) /
      86400000 + 3) % 7).toNat = (rataDie y m d + 3) % 7
  have h1 : (rataDie y m d : Int) * 86400000 - tzMin * 60000 + tzMin * 60000
      = (rataDie y m d : Int) * 86400000 := by ring
  rw [h1]
  omega

/-- Variant of `isDSTForDate` with the host timezone threaded to the one
call site that could see it. -/
def isDSTForDateTZ (tzMin : Int) (year month day : Nat) : Bool :=
  if 2 < month ∧ month < 9 then
    true
  else if month = 2 then
    let lastSunday := 31 - ((jsDateGetDay tzMin year 3 31 + 6) % 7)
    decide (lastSunday ≤ day)
  else if month = 9 then
    let lastSunday := 31 - ((jsDateGetDay tzMin year 10 31 + 6) % 7)
    decide (day < lastSunday)
  else
    false

/-- Variant of `getHelsinkiHour` with the host timezone threaded through. -/
def getHelsinkiHourTZ (tzMin : Int) (t : UTCTime) : Nat :=
  let isDST := isDSTForDateTZ tzMin t.year t.month t.day
  let offsetHours := if isDST then 3 else 2
  (t.hour + offsetHours) % 24

/-! ## Memoization caches (source lines 20-21, 26-27, 46, 52-54, 73)

The module-level objects `hourCache` and `dstCache` are modelled as
association lists threaded through the calls.  The hour cache is keyed in
the source by the exact timestamp string; distinct well-formed strings
with the same UTC fields compute the same entry, so keying by the field
record preserves every observable value. -/

/-- Hour cache: timestamp to resolved Helsinki hour. -/
abbrev HourCache := List (UTCTime × Nat)

/-- DST cache: the (year, month, day) triple behind the source's
`year-month-day` string key, to the DST flag. -/
abbrev DstCache := List ((Nat × Nat × Nat) × Bool)

/-- Cached `isDSTForDate` exactly as in the source: look the date key up,
otherwise run the core computation and append the result. -/
def isDSTForDateCached (c : DstCache) (year month day : Nat) : Bool × DstCache :=
  match List.lookup (year, month, day) c with
  | some b => (b, c)
  | none =>
      let b := isDSTForDate year month day
      (b, ((year, month, day), b) :: c)

/-- Cached `getHelsinkiHour` exactly as in the source: look the timestamp
up in the hour cache, otherwise compute via the cached DST lookup and the
offset shift, storing the hour. -/
def getHelsinkiHourCached (hc : HourCache) (dc : DstCache) (t : UTCTime) :
    Nat × HourCache × DstCache :=
  match List.lookup t hc with
  | some h => (h, hc, dc)
  | none =>
      let r := isDSTForDateCached dc t.year t.month t.day
      let offsetHours := if r.1 then 3 else 2
      let h := (t.hour + offsetHours) % 24
      (h, (t, h) :: hc, r.2)

/-- Cache pair produced by a sequence of prior calls starting from the
empty module-level caches. -/
def runCalls : List UTCTime → HourCache × DstCache
  | [] => ([], [])
  | t :: ts =>
      let s := runCalls ts
      let r := getHelsinkiHourCached s.1 s.2 t
      (r.2.1, r.2.2)

/-! ## Sensor records (common/interfaces.ts `SensorValue`)

Only the fields the handler reads are modelled.  `value` is an Option
because the handler guards against an absent value (`!item.value`), and
`timeWindowStart` is an Option because the handler falls back to
`measuredTime` when it is absent. -/
structure SensorValue where
  name : String
  unit : String
  value : Option ℚ
  measuredTime : UTCTime
  timeWindowStart : Option UTCTime
  compositeKey : String
deriving DecidableEq, Repr

/-- Substring search on character lists, used to model the JavaScript
`String.prototype.includes`. -/
def charsContain (pat : List Char) : List Char → Bool
  | [] => pat.isEmpty
  | c :: t => pat.isPrefixOf (c :: t) || charsContain pat t

/-- JavaScript `s.includes(pat)`: case-sensitive substring containment. -/
def strContains (s pat : String) : Bool :=
  charsContain pat.data s.data

example : strContains "OHITUKSET_60MIN" "OHITUKSET" = true := by decide
example : strContains "KESKINOPEUS" "OHITUKSET" = false := by decide

/-- Filter for traffic-count sensors (source line 243-245):
name contains OHITUKSET and unit is exactly kpl/h. -/
def isTrafficCountSensor (r : SensorValue) : Bool :=
  strContains r.name "OHITUKSET" && r.unit == "kpl/h"

/-- Filter for average-speed sensors (source line 247-249):
name contains KESKINOPEUS and unit is exactly km/h. -/
def isSpeedSensor (r : SensorValue) : Bool :=
  strContains r.name "KESKINOPEUS" && r.unit == "km/h"

/-- Guard of the per-sensor grouping loop (source line 190):
`!item.value || item.value === 0` skips an absent or zero value. -/
def skipValue (r : SensorValue) : Bool :=
  match r.value with
  | none => true
  | some v => decide (v = 0)

/-- Timestamp preference (source lines 192, 253, 267):
`item.timeWindowStart || item.measuredTime`. -/
def recTime (r : SensorValue) : UTCTime :=
  r.timeWindowStart.getD r.measuredTime

/-- Local hour of a record, via the cache-transparent core resolver. -/
def recHour (r : SensorValue) : Nat :=
  getHelsinkiHour (recTime r)

/-! ## Rounding helpers -/

/-- Floor of a rational as integer division of numerator by denominator;
kept in this explicitly computable form so the kernel can evaluate it. -/
def ratFloor (q : ℚ) : ℤ :=
  q.num / q.den

/-- Helper lemma: `ratFloor` is the mathematical floor. -/
theorem ratFloor_eq_floor (q : ℚ) : ratFloor q = ⌊q⌋ :=
  Rat.floor_def.symm

/-- JavaScript `Number(x.toFixed(1))`: round to one decimal, ties away
from the smaller value (toward positive infinity). -/
def round1 (q : ℚ) : ℚ :=
  ((ratFloor (q * 10 + 1 / 2) : ℤ) : ℚ) / 10

/-- JavaScript `Math.round`: round to the nearest integer, ties toward
positive infinity. -/
def jsRound (q : ℚ) : ℚ :=
  ((ratFloor (q + 1 / 2) : ℤ) : ℚ)

example : round1 (15 : ℚ) = 15 := by with_unfolding_all rfl
example : round1 (125 / 10 : ℚ) = 125 / 10 := by with_unfolding_all rfl
example : jsRound (4 : ℚ) = 4 := by with_unfolding_all rfl
example : jsRound (35 / 10 : ℚ) = 4 := by with_unfolding_all rfl

/-! ## Per-sensor grouping (source lines 167-231) -/

/-- Sensor names in first-occurrence order: the effect of the
`groupedByNameAndHour` pre-creation loop (source lines 179-186), whose
object keys enumerate in insertion order. -/
def firstNames (items : List SensorValue) : List String :=
  items.foldl (fun ns r => if ns.contains r.name then ns else ns ++ [r.name]) []

/-- Unit-map loop (source lines 171-176): walk the items, and write
`item.unit || ''` for a name whenever the map holds no truthy entry yet
(absent or empty string). -/
def buildUnitMap (items : List SensorValue) : List (String × String) :=
  items.foldl
    (fun m r =>
      match List.lookup r.name m with
      | none => m ++ [(r.name, r.unit)]
      | some u =>
          if u = "" then m.map (fun p => if p.1 = r.name then (p.1, r.unit) else p)
          else m)
    []

/-- Read of `sensorUnitMap[name]` (source line 228). -/
def unitMapAt (items : List SensorValue) (n : String) : String :=
  (List.lookup n (buildUnitMap items)).getD ""

/-- Cell (n, h) of `groupedByNameAndHour` after the accumulation loop
(source lines 189-198): start from the pre-created zero bucket and fold
the items, skipping absent/zero values and accumulating sum and count for
the matching name and hour. -/
def bucketAt (items : List SensorValue) (n : String) (h : Nat) : ℚ × Nat :=
  items.foldl
    (fun b r =>
      if skipValue r then b
      else if r.name = n ∧ recHour r = h then (b.1 + r.value.getD 0, b.2 + 1)
      else b)
    (0, 0)

/-- Entry of a per-sensor hourly series: `{hour, value}`. -/
structure HourValue where
  hour : Nat
  value : ℚ
deriving DecidableEq, Repr

/-- Per-sensor series entry of the response: `{name, unit, hourlyData}`. -/
structure SensorEntry where
  name : String
  unit : String
  hourlyData : List HourValue
deriving DecidableEq, Repr

/-- Inner loop of the response conversion (source lines 211-224): for each
hour 0..23, a rounded average when the bucket count is positive, else 0. -/
def sensorHourlyData (items : List SensorValue) (n : String) : List HourValue :=
  (List.range 24).map fun h =>
    let b := bucketAt items n h
    if 0 < b.2 then ⟨h, round1 (b.1 / (b.2 : ℚ))⟩ else ⟨h, 0⟩

/-- The `hourlyAveragesByName` list (source lines 203-231), one entry per
sensor name in first-occurrence order. -/
def hourlyAveragesByName (items : List SensorValue) : List SensorEntry :=
  (firstNames items).map fun n => ⟨n, unitMapAt items n, sensorHourlyData items n⟩

/-! ## Overall hourly averages (source lines 235-302) -/

/-- State of one `hourlyAverages[hour]` slot (source lines 235-240). -/
structure OverallAcc where
  trafficCount : ℚ
  avgSpeed : ℚ
  trafficDataPoints : Nat
  speedDataPoints : Nat
deriving DecidableEq, Repr

/-- The `trafficCountSensors` filter (source lines 243-245). -/
def trafficCountSensors (items : List SensorValue) : List SensorValue :=
  items.filter isTrafficCountSensor

/-- The `speedSensors` filter (source lines 247-249). -/
def speedSensors (items : List SensorValue) : List SensorValue :=
  items.filter isSpeedSensor

/-- Slot `h` of `hourlyAverages` after the two accumulation loops (source
lines 252-279): the traffic loop adds `item.value || 0` and bumps the
traffic counter, then the speed loop adds into its own sum and its own
counter. -/
def overallAcc (items : List SensorValue) (h : Nat) : OverallAcc :=
  let a1 := (trafficCountSensors items).foldl
    (fun a r =>
      if recHour r = h then
        { a with
          trafficCount := a.trafficCount + r.value.getD 0
          trafficDataPoints := a.trafficDataPoints + 1 }
      else a)
    ⟨0, 0, 0, 0⟩
  (speedSensors items).foldl
    (fun a r =>
      if recHour r = h then
        { a with
          avgSpeed := a.avgSpeed + r.value.getD 0
          speedDataPoints := a.speedDataPoints + 1 }
      else a)
    a1

/-- Entry of the overall hourly series: `{hour, trafficCount, avgSpeed}`. -/
structure HourAvg where
  hour : Nat
  trafficCount : ℚ
  avgSpeed : ℚ
deriving DecidableEq, Repr

/-- Final overall series (source lines 285-302): each category divides by
its own data-point counter, guarded so a zero counter yields 0. -/
def hourlyData (items : List SensorValue) : List HourAvg :=
  (List.range 24).map fun h =>
    let a := overallAcc items h
    ⟨h,
     if a.trafficDataPoints = 0 then 0
     else jsRound (a.trafficCount / (a.trafficDataPoints : ℚ)),
     if a.speedDataPoints = 0 then 0
     else round1 (a.avgSpeed / (a.speedDataPoints : ℚ))⟩

/-- The `filteredHourlyAveragesByName` list (source lines 306-309): keep a
per-sensor entry when some traffic-count or speed record bears its name. -/
def sensorData (items : List SensorValue) : List SensorEntry :=
  (hourlyAveragesByName items).filter fun s =>
    (trafficCountSensors items).any (fun tc => tc.name == s.name) ||
    (speedSensors items).any (fun ss => ss.name == s.name)

/-! ## The partitioned store and the paginated range query
(source lines 133-161)

The station's partition is a list of records; DynamoDB keeps sort keys
unique and ascending within a partition, which the completeness theorem
takes as a hypothesis.  A query returns the in-range records situated
strictly after the exclusive start key, truncated to the store's page
size; a truncated page carries the key of its last record as
`LastEvaluatedKey`.  `failAt` marks the query number that throws, for the
error-path claims. -/

/-- The `BETWEEN :startKey AND :endKey` sort-key condition. -/
def keyInRange (sk ek : String) (r : SensorValue) : Bool :=
  decide (sk ≤ r.compositeKey) && decide (r.compositeKey ≤ ek)

/-- The `ExclusiveStartKey` condition: strictly after the token. -/
def afterKey : Option String → SensorValue → Bool
  | none, _ => true
  | some k, r => decide (k < r.compositeKey)

/-- Store model: one station's partition, the store's internal page size,
and an optional query number at which the store throws. -/
structure Store where
  table : List SensorValue
  pageSize : Nat
  failAt : Option Nat
deriving DecidableEq, Repr

/-- One `QueryCommand` round trip: page of items plus the continuation
token when the page was truncated. -/
def queryPage (store : Store) (sk ek : String) (esk : Option String) :
    List SensorValue × Option String :=
  let pending := (store.table.filter (keyInRange sk ek)).filter (afterKey esk)
  if pending.length ≤ store.pageSize then (pending, none)
  else
    let page := pending.take store.pageSize
    (page, page.getLast?.map (fun r => r.compositeKey))

/-- The do/while pagination loop (source lines 141-161): issue a query,
concatenate the page, and loop with the returned `LastEvaluatedKey` until
the store returns none.  The loop in the source runs as long as the store
keeps returning tokens; `fuel` bounds the recursion and is chosen large
enough that it never runs out on a duplicate-free partition. -/
def fetchPages (fuel : Nat) (store : Store) (sk ek : String)
    (esk : Option String) (pageNo : Nat) : Except String (List SensorValue) :=
  match fuel with
  | 0 => .ok []
  | fuel + 1 =>
      if store.failAt = some pageNo then .error "DynamoDB query failed"
      else
        let pr := queryPage store sk ek esk
        match pr.2 with
        | none => .ok pr.1
        | some k =>
            match fetchPages fuel store sk ek (some k) (pageNo + 1) with
            | .ok rest => .ok (pr.1 ++ rest)
            | .error e => .error e

/-! ## Date window (source lines 122-139) -/

/-- Two-digit zero padding of a date component. -/
def pad2 (n : Nat) : String :=
  if n < 10 then "0" ++ toString n else toString n

/-- ISO calendar date string `YYYY-MM-DD` from a year, a 0-based month and
a day, as produced by `toISOString().split('T')[0]`. -/
def isoDate (y m0 d : Nat) : String :=
  toString y ++ "-" ++ pad2 (m0 + 1) ++ "-" ++ pad2 d

/-- JavaScript `lastMonth.setMonth(today.getMonth() - 1)` (source lines
124-125): decrement the month (borrowing from the year below January) and
normalize a day overflowing the target month's length by rolling the
excess into the following month, which is again today's month. -/
def prevMonthDate (y m0 d : Nat) : Nat × Nat × Nat :=
  if m0 = 0 then
    if d ≤ daysInMonth (y - 1) 11 then (y - 1, 11, d)
    else (y, 0, d - daysInMonth (y - 1) 11)
  else
    if d ≤ daysInMonth y (m0 - 1) then (y, m0 - 1, d)
    else (y, m0, d - daysInMonth y (m0 - 1))

/-- The `startDate` string of the handler (source line 127). -/
def startDateStr (now : UTCTime) : String :=
  let p := prevMonthDate now.year now.month now.day
  isoDate p.1 p.2.1 p.2.2

/-- The `endDate` string of the handler (source line 128). -/
def endDateStr (now : UTCTime) : String :=
  isoDate now.year now.month now.day

/-- The `startDateKey` (source line 138): `new Date(startDate)` is UTC
midnight of that date, so its ISO string appends `T00:00:00.000Z`. -/
def startKeyStr (sid : String) (now : UTCTime) : String :=
  sid ++ "#" ++ startDateStr now ++ "T00:00:00.000Z"

/-- The `endDateKey` (source line 139). -/
def endKeyStr (sid : String) (now : UTCTime) : String :=
  sid ++ "#" ++ endDateStr now ++ "T23:59:59.999Z"

/-! ## The handler (source lines 82-340) -/

/-- Inbound API Gateway event: the HTTP method and the optional
`pathParameters.stationId`. -/
structure APIEvent where
  httpMethod : String
  stationId : Option String
deriving DecidableEq, Repr

/-- Process environment: the optional `DYNAMODB_TABLE_NAME`. -/
structure Env where
  tableName : Option String
deriving DecidableEq, Repr

/-- The 200-response payload (source lines 313-321). -/
structure AggregateResponse where
  stationId : String
  periodStart : String
  periodEnd : String
  hourlyAverages : List HourAvg
  sensorData : List SensorEntry
deriving DecidableEq, Repr

/-- Shapes of the JSON bodies the handler can serialize. -/
inductive RespBody where
  | empty
  | message (msg : String)
  | failure (msg err : String)
  | success (r : AggregateResponse)
deriving DecidableEq, Repr

/-- HTTP response: status code plus body. -/
structure Response where
  statusCode : Nat
  body : RespBody
deriving DecidableEq, Repr

/-- The Lambda handler: OPTIONS short-circuit, stationId validation,
configuration check (a missing table name throws and is caught by the
surrounding try/catch as a 500), the paginated fetch (whose failure is
likewise caught, discarding every fetched page), and the aggregation
pipeline feeding the 200 response. -/
def handler (event : APIEvent) (env : Env) (store : Store) (now : UTCTime) :
    Response :=
  if event.httpMethod = "OPTIONS" then ⟨200, .empty⟩
  else
    match event.stationId with
    | none => ⟨400, .message "Missing stationId parameter"⟩
    | some sid =>
        match env.tableName with
        | none =>
            ⟨500, .failure "Failed to get hourly average data"
              "Error: DYNAMODB_TABLE_NAME environment variable is not defined"⟩
        | some _ =>
            match fetchPages (store.table.length + 1) store
                (startKeyStr sid now) (endKeyStr sid now) none 1 with
            | .error e => ⟨500, .failure "Failed to get hourly average data" e⟩
            | .ok items =>
                ⟨200, .success
                  ⟨sid, startDateStr now, endDateStr now,
                   hourlyData items, sensorData items⟩⟩

/-! # Theorems -/

/-! ## Cache validity and transparency (claim C7) -/

/-- Hour-cache validity: every entry holds the pure resolver's value. -/
def HCValid (hc : HourCache) : Prop :=
  ∀ p ∈ hc, p.2 = getHelsinkiHour p.1

/-- DST-cache validity: every entry holds the pure DST flag for its date. -/
def DCValid (dc : DstCache) : Prop :=
  ∀ p ∈ dc, p.2 = isDSTForDate p.1.1 p.1.2.1 p.1.2.2

/-- Helper lemma: a successful association-list lookup returns a stored pair. -/
theorem lookup_mem {α β : Type} [BEq α] [LawfulBEq α] {l : List (α × β)} {k : α} {v : β}
    (h : List.lookup k l = some v) : (k, v) ∈ l := by
  induction l with
  | nil => simp [List.lookup] at h
  | cons p tl ih =>
      obtain ⟨a, b⟩ := p
      rw [List.lookup_cons] at h
      by_cases hk : k = a
      · subst hk
        simp at h
        simp [h]
      · have : (k == a) = false := by simp [hk]
        rw [this] at h
        exact List.mem_cons_of_mem _ (ih h)

/-- Helper lemma: on a valid DST cache, the cached lookup returns the pure
flag and preserves validity. -/
theorem isDSTForDateCached_ok {dc : DstCache} (hv : DCValid dc) (y m d : Nat) :
    (isDSTForDateCached dc y m d).1 = isDSTForDate y m d ∧
      DCValid (isDSTForDateCached dc y m d).2 := by
  unfold isDSTForDateCached
  cases hl : List.lookup (y, m, d) dc with
  | none =>
      refine ⟨rfl, ?_⟩
      intro p hp
      rcases List.mem_cons.mp hp with h | h
      · subst h; rfl
      · exact hv p h
  | some b =>
      dsimp only
      exact ⟨hv ((y, m, d), b) (lookup_mem hl), hv⟩

/-- Helper lemma: on valid caches, the cached resolver returns the pure
hour and preserves both validity invariants. -/
theorem getHelsinkiHourCached_ok {hc : HourCache} {dc : DstCache}
    (hhc : HCValid hc) (hdc : DCValid dc) (t : UTCTime) :
    (getHelsinkiHourCached hc dc t).1 = getHelsinkiHour t ∧
      HCValid (getHelsinkiHourCached hc dc t).2.1 ∧
      DCValid (getHelsinkiHourCached hc dc t).2.2 := by
  unfold getHelsinkiHourCached
  cases hl : List.lookup t hc with
  | none =>
      obtain ⟨hflag, hvalid⟩ := isDSTForDateCached_ok hdc t.year t.month t.day
      simp only
      refine ⟨?_, ?_, hvalid⟩
      · rw [hflag]; rfl
      · intro p hp
        rcases List.mem_cons.mp hp with h | h
        · subst h; rw [hflag]; rfl
        · exact hhc p h
  | some h =>
      dsimp only
      exact ⟨hhc (t, h) (lookup_mem hl), hhc, hdc⟩

/-- Helper lemma: any cache pair reachable from the empty module-level
caches by prior calls is valid. -/
theorem runCalls_valid (ts : List UTCTime) :
    HCValid (runCalls ts).1 ∧ DCValid (runCalls ts).2 := by
  induction ts with
  | nil =>
      constructor
      · intro p hp; cases hp
      · intro p hp; cases hp
  | cons t ts ih =>
      obtain ⟨h1, h2⟩ := ih
      obtain ⟨-, h3, h4⟩ := getHelsinkiHourCached_ok h1 h2 t
      exact ⟨h3, h4⟩

/-- Claim C7: `getHelsinkiHour` is deterministic and memoization
transparent.  After any sequence of prior calls starting from the empty
module-level caches, a call returns exactly the empty-cache pure value —
so two calls with the same timestamp agree no matter how they interleave
with other calls — and the result is unchanged under any fixed host
timezone offset. -/
theorem helsinkiHour_memo_transparent (prior : List UTCTime) (t : UTCTime)
    (tzMin : Int) :
    (getHelsinkiHourCached (runCalls prior).1 (runCalls prior).2 t).1 =
        getHelsinkiHour t ∧
      getHelsinkiHourTZ tzMin t = getHelsinkiHour t := by
  obtain ⟨h1, h2⟩ := runCalls_valid prior
  refine ⟨(getHelsinkiHourCached_ok h1 h2 t).1, ?_⟩
  unfold getHelsinkiHourTZ getHelsinkiHour isDSTForDateTZ isDSTForDate
  simp only [jsDateGetDay_eq]

/-! ## The DST boundary rule (claim C2) -/

/-- Claim C2 evaluation: the code contradicts the claim's last-Sunday
rule.  The last Sunday of March 2024 is March 31, so under the claim's
rule March 26, 2024 is not daylight-saving and 10:00 UTC resolves to
Helsinki hour 12; the source's `31 - ((getDay + 6) % 7)` expression
however evaluates to 25 (the last Monday), so the code marks the day as
daylight-saving and returns 13. -/
theorem getHelsinkiHour_lastSunday_divergence :
    getHelsinkiHour ⟨2024, 2, 26, 10⟩ = 13 ∧
      helsinkiHourClaimRule ⟨2024, 2, 26, 10⟩ = 12 ∧
      isDSTForDate 2024 2 26 = true ∧
      isDSTClaimRule 2024 2 26 = false ∧
      lastSundayOf 2024 3 = 31 := by
  refine ⟨?_, ?_, ?_, ?_, ?_⟩ <;> decide

/-! ## Total handler, status codes, OPTIONS short-circuit (claim C10) -/

/-- Claim C10: the handler is a total function of its inputs (the model of
a promise that always resolves: every thrown error is converted to a
response by the surrounding try/catch), its status code is always 200,
400 or 500, and an OPTIONS request yields 200 with an empty body
independently of the store. -/
theorem handler_total_status (event : APIEvent) (env : Env) (store : Store)
    (now : UTCTime) :
    ((handler event env store now).statusCode = 200 ∨
      (handler event env store now).statusCode = 400 ∨
      (handler event env store now).statusCode = 500) ∧
    (event.httpMethod = "OPTIONS" →
      handler event env store now = ⟨200, .empty⟩ ∧
      ∀ store' : Store, handler event env store' now = ⟨200, .empty⟩) := by
  constructor
  · unfold handler
    split
    · exact Or.inl rfl
    · split
      · exact Or.inr (Or.inl rfl)
      · split
        · exact Or.inr (Or.inr rfl)
        · split
          · exact Or.inr (Or.inr rfl)
          · exact Or.inl rfl
  · intro hm
    refine ⟨?_, fun store' => ?_⟩ <;> · unfold handler; rw [if_pos hm]

/-- Witness for claim C10 at a concrete OPTIONS event. -/
theorem handler_total_status_witness :
    handler ⟨"OPTIONS", none⟩ ⟨none⟩ ⟨[], 1, none⟩ ⟨2024, 4, 15, 10⟩ =
      ⟨200, .empty⟩ :=
  ((handler_total_status ⟨"OPTIONS", none⟩ ⟨none⟩ ⟨[], 1, none⟩
    ⟨2024, 4, 15, 10⟩).2 rfl).1

/-! ## Error paths (claim C8) -/

/-- Claim C8: a missing stationId yields a 400 whose body names the
parameter, without the store being consulted (the response is the same
for every store); a missing table name yields a 500 whose structured body
separates the generic message from the stringified error; a failure of
the paginated fetch at any page yields a 500 carrying the error, with no
aggregate in the body (all fetched pages discarded) and no retry. -/
theorem handler_error_paths (event : APIEvent) (env : Env) (store : Store)
    (now : UTCTime) :
    (event.httpMethod ≠ "OPTIONS" → event.stationId = none →
      handler event env store now = ⟨400, .message "Missing stationId parameter"⟩ ∧
      strContains "Missing stationId parameter" "stationId" = true ∧
      ∀ store' : Store, handler event env store' now =
        ⟨400, .message "Missing stationId parameter"⟩) ∧
    (∀ sid : String, event.httpMethod ≠ "OPTIONS" → event.stationId = some sid →
      env.tableName = none →
      handler event env store now =
        ⟨500, .failure "Failed to get hourly average data"
          "Error: DYNAMODB_TABLE_NAME environment variable is not defined"⟩) ∧
    (∀ sid tn e, event.httpMethod ≠ "OPTIONS" → event.stationId = some sid →
      env.tableName = some tn →
      fetchPages (store.table.length + 1) store (startKeyStr sid now)
        (endKeyStr sid now) none 1 = Except.error e →
      handler event env store now =
        ⟨500, .failure "Failed to get hourly average data" e⟩) := by
  refine ⟨?_, ?_, ?_⟩
  · intro hm hsid
    refine ⟨?_, by decide, fun store' => ?_⟩ <;>
      · unfold handler; rw [if_neg hm, hsid]
  · intro sid hm hsid htn
    unfold handler
    rw [if_neg hm, hsid, htn]
  · intro sid tn e hm hsid htn hfetch
    unfold handler
    rw [if_neg hm, hsid, htn]
    dsimp only
    rw [hfetch]

/-- Witness for claim C8: the three error paths at concrete inputs (no
stationId; stationId but no table name; a store that throws on its first
query page). -/
theorem handler_error_paths_witness :
    handler ⟨"GET", none⟩ ⟨some "T"⟩ ⟨[], 1, none⟩ ⟨2024, 4, 15, 10⟩ =
      ⟨400, .message "Missing stationId parameter"⟩ ∧
    handler ⟨"GET", some "1001"⟩ ⟨none⟩ ⟨[], 1, none⟩ ⟨2024, 4, 15, 10⟩ =
      ⟨500, .failure "Failed to get hourly average data"
        "Error: DYNAMODB_TABLE_NAME environment variable is not defined"⟩ ∧
    handler ⟨"GET", some "1001"⟩ ⟨some "T"⟩ ⟨[], 1, some 1⟩ ⟨2024, 4, 15, 10⟩ =
      ⟨500, .failure "Failed to get hourly average data" "DynamoDB query failed"⟩ := by
  refine ⟨?_, ?_, ?_⟩
  · exact ((handler_error_paths ⟨"GET", none⟩ ⟨some "T"⟩ ⟨[], 1, none⟩
      ⟨2024, 4, 15, 10⟩).1 (by decide) rfl).1
  · exact (handler_error_paths ⟨"GET", some "1001"⟩ ⟨none⟩ ⟨[], 1, none⟩
      ⟨2024, 4, 15, 10⟩).2.1 "1001" (by decide) rfl rfl
  · exact (handler_error_paths ⟨"GET", some "1001"⟩ ⟨some "T"⟩ ⟨[], 1, some 1⟩
      ⟨2024, 4, 15, 10⟩).2.2 "1001" "T" "DynamoDB query failed" (by decide) rfl rfl
      rfl

/-! ## Closed forms of the overall accumulation loops -/

/-- Sum of the `value || 0` contributions of the records of `l` whose
local hour is `h`. -/
def hourSum (l : List SensorValue) (h : Nat) : ℚ :=
  ((l.filter fun r => decide (recHour r = h)).map fun r => r.value.getD 0).sum

/-- Number of records of `l` whose local hour is `h`. -/
def hourCount (l : List SensorValue) (h : Nat) : Nat :=
  (l.filter fun r => decide (recHour r = h)).length

/-- Helper lemma: hourSum over a cons whose head matches the hour. -/
theorem hourSum_cons_pos {r : SensorValue} {h : Nat} (t : List SensorValue)
    (hr : recHour r = h) :
    hourSum (r :: t) h = r.value.getD 0 + hourSum t h := by
  simp [hourSum, List.filter_cons, hr]

/-- Helper lemma: hourSum over a cons whose head misses the hour. -/
theorem hourSum_cons_neg {r : SensorValue} {h : Nat} (t : List SensorValue)
    (hr : ¬ recHour r = h) :
    hourSum (r :: t) h = hourSum t h := by
  simp [hourSum, List.filter_cons, hr]

/-- Helper lemma: hourCount over a cons whose head matches the hour. -/
theorem hourCount_cons_pos {r : SensorValue} {h : Nat} (t : List SensorValue)
    (hr : recHour r = h) :
    hourCount (r :: t) h = hourCount t h + 1 := by
  simp [hourCount, List.filter_cons, hr]

/-- Helper lemma: hourCount over a cons whose head misses the hour. -/
theorem hourCount_cons_neg {r : SensorValue} {h : Nat} (t : List SensorValue)
    (hr : ¬ recHour r = h) :
    hourCount (r :: t) h = hourCount t h := by
  simp [hourCount, List.filter_cons, hr]

/-- Helper lemma: closed form of the traffic-count accumulation loop. -/
theorem trafficFold_closed (h : Nat) (l : List SensorValue) :
    ∀ a : OverallAcc,
      l.foldl
        (fun a r =>
          if recHour r = h then
            { a with
              trafficCount := a.trafficCount + r.value.getD 0
              trafficDataPoints := a.trafficDataPoints + 1 }
          else a)
        a =
      { a with
        trafficCount := a.trafficCount + hourSum l h
        trafficDataPoints := a.trafficDataPoints + hourCount l h } := by
  induction l with
  | nil => intro a; simp [hourSum, hourCount]
  | cons r t ih =>
      intro a
      by_cases hr : recHour r = h
      · rw [List.foldl_cons, if_pos hr, ih, hourSum_cons_pos t hr,
          hourCount_cons_pos t hr]
        simp only [OverallAcc.mk.injEq]
        refine ⟨by ring, trivial, by omega, trivial⟩
      · rw [List.foldl_cons, if_neg hr, ih, hourSum_cons_neg t hr,
          hourCount_cons_neg t hr]

/-- Helper lemma: closed form of the speed accumulation loop. -/
theorem speedFold_closed (h : Nat) (l : List SensorValue) :
    ∀ a : OverallAcc,
      l.foldl
        (fun a r =>
          if recHour r = h then
            { a with
              avgSpeed := a.avgSpeed + r.value.getD 0
              speedDataPoints := a.speedDataPoints + 1 }
          else a)
        a =
      { a with
        avgSpeed := a.avgSpeed + hourSum l h
        speedDataPoints := a.speedDataPoints + hourCount l h } := by
  induction l with
  | nil => intro a; simp [hourSum, hourCount]
  | cons r t ih =>
      intro a
      by_cases hr : recHour r = h
      · rw [List.foldl_cons, if_pos hr, ih, hourSum_cons_pos t hr,
          hourCount_cons_pos t hr]
        simp only [OverallAcc.mk.injEq]
        refine ⟨trivial, by ring, trivial, by omega⟩
      · rw [List.foldl_cons, if_neg hr, ih, hourSum_cons_neg t hr,
          hourCount_cons_neg t hr]

/-- Helper lemma: the slot of `hourlyAverages` holds exactly the per-hour
sums and counts of the two sensor filters, each with its own counter. -/
theorem overallAcc_closed (items : List SensorValue) (h : Nat) :
    overallAcc items h =
      ⟨hourSum (trafficCountSensors items) h,
       hourSum (speedSensors items) h,
       hourCount (trafficCountSensors items) h,
       hourCount (speedSensors items) h⟩ := by
  unfold overallAcc
  rw [trafficFold_closed, speedFold_closed]
  simp

/-- Helper lemma: indexing a mapped range. -/
theorem rangeMap_getElem {α : Type} (f : Nat → α) {n h : Nat} (hh : h < n) :
    ((List.range n).map f)[h]? = some (f h) := by
  rw [List.getElem?_map, List.getElem?_range hh]
  rfl

/-! ## Separate per-category counters (claim C4) -/

/-- Claim C4: hour `h` of the overall series divides the traffic-count sum
only by the traffic-count data-point counter and the speed sum only by
the speed data-point counter, each guarded by its own zero test — so an
hour with points in one category and none in the other reports the
correct average for the populated category and 0 for the empty one. -/
theorem hourlyData_separate_counters (items : List SensorValue) (h : Nat)
    (hh : h < 24) :
    (hourlyData items)[h]? = some
      ⟨h,
       if hourCount (trafficCountSensors items) h = 0 then 0
       else jsRound (hourSum (trafficCountSensors items) h /
         (hourCount (trafficCountSensors items) h : ℚ)),
       if hourCount (speedSensors items) h = 0 then 0
       else round1 (hourSum (speedSensors items) h /
         (hourCount (speedSensors items) h : ℚ))⟩ := by
  unfold hourlyData
  rw [rangeMap_getElem _ hh, overallAcc_closed]

/-- Record used by several witnesses below: one traffic-count reading of
100 vehicles at 10:00 UTC on May 1, 2024, i.e. Helsinki hour 13. -/
def wRec : SensorValue :=
  ⟨"OHITUKSET_60MIN", "kpl/h", some 100, ⟨2024, 4, 1, 10⟩, none, "k1"⟩

example : recHour wRec = 13 := by decide

/-- Witness for claim C4: with a single traffic-count record and no speed
records, hour 13 reports average 100 and speed 0. -/
theorem hourlyData_separate_counters_witness :
    (hourlyData [wRec])[13]? = some ⟨13, 100, 0⟩ := by
  have h := hourlyData_separate_counters [wRec] 13 (by decide)
  exact h.trans (by with_unfolding_all rfl)

/-! ## Output shape: 24 entries, guarded divisions (claim C5) -/

/-- Helper lemma: an entry of `hourlyAveragesByName` carries the unit-map
value and the hourly series of its name. -/
theorem mem_hourlyAveragesByName {items : List SensorValue} {e : SensorEntry}
    (he : e ∈ hourlyAveragesByName items) :
    e.unit = unitMapAt items e.name ∧
      e.hourlyData = sensorHourlyData items e.name := by
  unfold hourlyAveragesByName at he
  obtain ⟨n, hn, rfl⟩ := List.mem_map.mp he
  exact ⟨rfl, rfl⟩

/-- Helper lemma: `sensorData` is a sublist of `hourlyAveragesByName`. -/
theorem mem_sensorData_mem_av {items : List SensorValue} {e : SensorEntry}
    (he : e ∈ sensorData items) : e ∈ hourlyAveragesByName items :=
  (List.mem_filter.mp he).1

/-- Claim C5: the overall series has exactly 24 entries for hours 0..23,
each with guarded divisions (zero-count hours are exactly 0), and every
per-sensor series of the response likewise has exactly 24 entries, each
hour holding the 1-decimal rounded average when its bucket count is
positive and exactly 0 otherwise.  Divisions only happen under a
positive-count guard, so no NaN or missing entry is observable. -/
theorem response_shape_no_nan (items : List SensorValue) :
    (hourlyData items).length = 24 ∧
    (∀ h : Nat, h < 24 →
      (hourlyData items)[h]? = some
        ⟨h,
         if (overallAcc items h).trafficDataPoints = 0 then 0
         else jsRound ((overallAcc items h).trafficCount /
           ((overallAcc items h).trafficDataPoints : ℚ)),
         if (overallAcc items h).speedDataPoints = 0 then 0
         else round1 ((overallAcc items h).avgSpeed /
           ((overallAcc items h).speedDataPoints : ℚ))⟩) ∧
    (∀ e ∈ sensorData items,
      e.hourlyData.length = 24 ∧
      ∀ h : Nat, h < 24 →
        e.hourlyData[h]? = some
          (if 0 < (bucketAt items e.name h).2 then
            (⟨h, round1 ((bucketAt items e.name h).1 /
              ((bucketAt items e.name h).2 : ℚ))⟩ : HourValue)
          else ⟨h, 0⟩)) := by
  refine ⟨by simp [hourlyData], ?_, ?_⟩
  · intro h hh
    unfold hourlyData
    rw [rangeMap_getElem _ hh]
  · intro e he
    obtain ⟨-, hdata⟩ := mem_hourlyAveragesByName (mem_sensorData_mem_av he)
    rw [hdata]
    refine ⟨by simp [sensorHourlyData], ?_⟩
    intro h hh
    unfold sensorHourlyData
    rw [rangeMap_getElem _ hh]

/-- Witness for claim C5 on a one-record input: 24 entries, hour 13 of
the sensor's series holds the rounded average. -/
theorem response_shape_no_nan_witness :
    (hourlyData [wRec]).length = 24 ∧
    (sensorHourlyData [wRec] "OHITUKSET_60MIN")[13]? = some ⟨13, 100⟩ ∧
    (sensorHourlyData [wRec] "OHITUKSET_60MIN").length = 24 := by
  have h := response_shape_no_nan [wRec]
  have hsd : sensorData [wRec] =
      [⟨"OHITUKSET_60MIN", "kpl/h", sensorHourlyData [wRec] "OHITUKSET_60MIN"⟩] := by
    with_unfolding_all rfl
  have h3 := h.2.2
    ⟨"OHITUKSET_60MIN", "kpl/h", sensorHourlyData [wRec] "OHITUKSET_60MIN"⟩
    (by rw [hsd]; exact List.mem_singleton.mpr rfl)
  exact ⟨h.1, (h3.2 13 (by decide)).trans (by with_unfolding_all rfl), h3.1⟩

/-! ## Zero and missing values (claim C3) -/

/-- Helper lemma: a skipped record contributes 0 under `value || 0`. -/
theorem skipValue_getD {r : SensorValue} (hskip : skipValue r = true) :
    r.value.getD 0 = 0 := by
  unfold skipValue at hskip
  cases hv : r.value with
  | none => rfl
  | some v =>
      rw [hv] at hskip
      simp only [decide_eq_true_eq] at hskip
      simp [hv, hskip]

/-- Helper lemma: hourSum distributes over append. -/
theorem hourSum_append (l1 l2 : List SensorValue) (h : Nat) :
    hourSum (l1 ++ l2) h = hourSum l1 h + hourSum l2 h := by
  simp [hourSum, List.filter_append]

/-- Helper lemma: hourCount distributes over append. -/
theorem hourCount_append (l1 l2 : List SensorValue) (h : Nat) :
    hourCount (l1 ++ l2) h = hourCount l1 h + hourCount l2 h := by
  simp [hourCount, List.filter_append]

/-- Helper lemma: hourSum of a single record. -/
theorem hourSum_singleton (r : SensorValue) (h : Nat) :
    hourSum [r] h = if recHour r = h then r.value.getD 0 else 0 := by
  by_cases hr : recHour r = h
  · rw [hourSum_cons_pos [] hr, if_pos hr]
    simp [hourSum]
  · rw [hourSum_cons_neg [] hr, if_neg hr]
    simp [hourSum]

/-- Helper lemma: hourCount of a single record. -/
theorem hourCount_singleton (r : SensorValue) (h : Nat) :
    hourCount [r] h = if recHour r = h then 1 else 0 := by
  by_cases hr : recHour r = h
  · rw [hourCount_cons_pos [] hr, if_pos hr]
    simp [hourCount]
  · rw [hourCount_cons_neg [] hr, if_neg hr]
    simp [hourCount]

/-- Record used in the claim C3 counterexample: a traffic-count reading
with value exactly 0 at Helsinki hour 13. -/
def zeroRec : SensorValue :=
  ⟨"OHITUKSET_60MIN", "kpl/h", some 0, ⟨2024, 4, 1, 10⟩, none, "k0"⟩

/-- Counterexample to claim C3 as stated: a record whose value is exactly
0 is classified as traffic-count and still increments the overall
traffic data-point counter (to 1 here), although it adds nothing to the
sum; with a second record of value 100 at the same hour, the reported
overall average drops to 50 instead of 100 — so the record does lower the
overall average, contradicting the claim that neither the sums nor the
data-point counters are touched. -/
theorem zeroValue_counted_in_overall :
    skipValue zeroRec = true ∧
    (overallAcc [zeroRec] 13).trafficDataPoints = 1 ∧
    (overallAcc [zeroRec] 13).trafficCount = 0 ∧
    (hourlyData [zeroRec, wRec])[13]? = some ⟨13, 50, 0⟩ := by
  refine ⟨by with_unfolding_all rfl, by with_unfolding_all rfl,
    by with_unfolding_all rfl, by with_unfolding_all rfl⟩

/-- Claim C3 amended: a record whose value is missing or exactly zero is
excluded from its sensor's per-hour bucket (neither sum nor count
changes); in the overall buckets it leaves both sums unchanged, but it
does increment the data-point counter of its category when it is
classified as traffic-count or average-speed at the record's hour — so it
can lower that category's reported average. -/
theorem skipValue_amended (items : List SensorValue) (r : SensorValue)
    (n : String) (h : Nat) (hskip : skipValue r = true) :
    bucketAt (items ++ [r]) n h = bucketAt items n h ∧
    (overallAcc (items ++ [r]) h).trafficCount =
      (overallAcc items h).trafficCount ∧
    (overallAcc (items ++ [r]) h).avgSpeed = (overallAcc items h).avgSpeed ∧
    (overallAcc (items ++ [r]) h).trafficDataPoints =
      (overallAcc items h).trafficDataPoints +
        (if isTrafficCountSensor r = true ∧ recHour r = h then 1 else 0) ∧
    (overallAcc (items ++ [r]) h).speedDataPoints =
      (overallAcc items h).speedDataPoints +
        (if isSpeedSensor r = true ∧ recHour r = h then 1 else 0) := by
  have hval := skipValue_getD hskip
  constructor
  · unfold bucketAt
    rw [List.foldl_append, List.foldl_cons, List.foldl_nil, if_pos hskip]
  · have hTfilter : trafficCountSensors (items ++ [r]) =
        trafficCountSensors items ++
          (if isTrafficCountSensor r then [r] else []) := by
      simp [trafficCountSensors, List.filter_append, List.filter_cons]
    have hSfilter : speedSensors (items ++ [r]) =
        speedSensors items ++ (if isSpeedSensor r then [r] else []) := by
      simp [speedSensors, List.filter_append, List.filter_cons]
    rw [overallAcc_closed, overallAcc_closed]
    simp only [hTfilter, hSfilter, hourSum_append, hourCount_append]
    refine ⟨?_, ?_, ?_, ?_⟩
    · by_cases ht : isTrafficCountSensor r
      · simp [ht, hourSum_singleton, hval]
      · simp [ht, hourSum]
    · by_cases hs : isSpeedSensor r
      · simp [hs, hourSum_singleton, hval]
      · simp [hs, hourSum]
    · by_cases ht : isTrafficCountSensor r
      · by_cases hr : recHour r = h <;> simp [ht, hr, hourCount_singleton]
      · simp [ht, hourCount]
    · by_cases hs : isSpeedSensor r
      · by_cases hr : recHour r = h <;> simp [hs, hr, hourCount_singleton]
      · simp [hs, hourCount]

/-- Witness for the amended claim C3: appending the zero-value record to
a one-record list leaves the sensor bucket and the overall sums intact
and increments the traffic data-point counter by one. -/
theorem skipValue_amended_witness :
    bucketAt ([wRec] ++ [zeroRec]) "OHITUKSET_60MIN" 13 =
      bucketAt [wRec] "OHITUKSET_60MIN" 13 ∧
    (overallAcc ([wRec] ++ [zeroRec]) 13).trafficCount =
      (overallAcc [wRec] 13).trafficCount ∧
    (overallAcc ([wRec] ++ [zeroRec]) 13).trafficDataPoints =
      (overallAcc [wRec] 13).trafficDataPoints + 1 := by
  have h := skipValue_amended [wRec] zeroRec "OHITUKSET_60MIN" 13
    (by with_unfolding_all rfl)
  exact ⟨h.1, h.2.1, h.2.2.2.1.trans (by with_unfolding_all rfl)⟩

/-! ## Sensor names and units of the response (claim C6) -/

/-- Unit the unit-map loop ends up with for name `n`: the unit of the
first record bearing `n` whose unit is nonempty, or the empty string if
every record bearing `n` has an empty unit.  This is the closed-form
characterization of `buildUnitMap` proved below; it differs from the
claim's words (the unit of the first record bearing the name) exactly when
the first record's unit is empty, because the loop overwrites falsy
entries. -/
def firstNonemptyUnit (items : List SensorValue) (n : String) : String :=
  match items.find? (fun r => r.name == n && !(r.unit == "")) with
  | some r => r.unit
  | none => ""

/-- Helper lemma: lookup distributes over append. -/
theorem lookup_append (l1 l2 : List (String × String)) (n : String) :
    List.lookup n (l1 ++ l2) =
      match List.lookup n l1 with
      | some v => some v
      | none => List.lookup n l2 := by
  induction l1 with
  | nil => simp
  | cons p t ih =>
      obtain ⟨a, b⟩ := p
      by_cases hna : n = a
      · subst hna
        simp [List.lookup_cons]
      · have hb : (n == a) = false := by simp [hna]
        rw [List.cons_append, List.lookup_cons, hb, List.lookup_cons, hb, ih]

/-- Helper lemma: lookup through the value-overwriting map of the
unit-map loop. -/
theorem lookup_map_update (m : List (String × String)) (k v n : String) :
    List.lookup n (m.map fun p => if p.1 = k then (p.1, v) else p) =
      if n = k then (List.lookup n m).map (fun _ => v)
      else List.lookup n m := by
  induction m with
  | nil => simp
  | cons p t ih =>
      obtain ⟨a, b⟩ := p
      by_cases hna : n = a
      · subst hna
        by_cases hak : n = k
        · subst hak
          simp [List.lookup_cons, ih]
        · simp [List.lookup_cons, hak, ih]
      · have hb : (n == a) = false := by simp [hna]
        by_cases hak : a = k
        · subst hak
          simp [List.lookup_cons, hb, hna, ih]
        · simp [List.lookup_cons, hb, hna, hak, ih]

/-- Helper lemma: one step of the unit-map fold. -/
theorem buildUnitMap_append (l : List SensorValue) (r : SensorValue) :
    buildUnitMap (l ++ [r]) =
      match List.lookup r.name (buildUnitMap l) with
      | none => buildUnitMap l ++ [(r.name, r.unit)]
      | some u =>
          if u = "" then
            (buildUnitMap l).map fun p => if p.1 = r.name then (p.1, r.unit) else p
          else buildUnitMap l := by
  unfold buildUnitMap
  rw [List.foldl_append, List.foldl_cons, List.foldl_nil]

/-- Helper lemma: a name absent from the records is absent from the
nonempty-unit search. -/
theorem find?_unit_none_of_no_name {l : List SensorValue} {n : String}
    (h : l.any (fun r => r.name == n) = false) :
    l.find? (fun r => r.name == n && !(r.unit == "")) = none := by
  rw [List.find?_eq_none]
  intro x hx
  have hxn := List.any_eq_false.mp h x hx
  simp only [Bool.and_eq_true, not_and]
  intro hn
  exact absurd hn hxn

/-- Helper lemma: an empty closed-form unit means no record with that
name has a nonempty unit. -/
theorem find?_unit_none_of_empty {l : List SensorValue} {n : String}
    (h : firstNonemptyUnit l n = "") :
    l.find? (fun r => r.name == n && !(r.unit == "")) = none := by
  unfold firstNonemptyUnit at h
  cases hf : l.find? (fun r => r.name == n && !(r.unit == "")) with
  | none => rfl
  | some x =>
      rw [hf] at h
      have hp := List.find?_some hf
      simp only [Bool.and_eq_true, Bool.not_eq_true', beq_eq_false_iff_ne] at hp
      exact absurd h hp.2

/-- Helper lemma: closed form of the unit map.  A name that occurs in the
items maps to the unit of its first record with a nonempty unit (the
empty string when there is none); other names are absent. -/
theorem lookup_buildUnitMap (items : List SensorValue) (n : String) :
    List.lookup n (buildUnitMap items) =
      if items.any (fun r => r.name == n) then some (firstNonemptyUnit items n)
      else none := by
  induction items using List.reverseRecOn with
  | nil => simp [buildUnitMap]
  | append_singleton l r ih =>
      rw [buildUnitMap_append]
      by_cases hn : n = r.name
      · subst hn
        have hany : ((l ++ [r]).any fun x => x.name == r.name) = true := by simp
        rw [hany, if_pos rfl]
        cases hlook : List.lookup r.name (buildUnitMap l) with
        | none =>
            dsimp only
            rw [ih] at hlook
            by_cases hla : l.any (fun x => x.name == r.name)
            · rw [if_pos hla] at hlook; cases hlook
            · have hla2 : (l.any fun x => x.name == r.name) = false := by
                simpa using hla
              have hN := find?_unit_none_of_no_name hla2
              rw [lookup_append, ih, if_neg hla]
              dsimp only
              unfold firstNonemptyUnit
              rw [List.find?_append, hN]
              by_cases hu : r.unit = "" <;>
                simp [List.lookup_cons, List.find?_cons, hu, Option.or]
        | some u =>
            dsimp only
            have horig : List.lookup r.name (buildUnitMap l) = some u := hlook
            have hla : (l.any fun x => x.name == r.name) = true := by
              by_contra hla
              rw [ih, if_neg hla] at hlook; cases hlook
            rw [ih, if_pos hla] at hlook
            have hfu : firstNonemptyUnit l r.name = u := Option.some.inj hlook
            by_cases hue : u = ""
            · have hN := find?_unit_none_of_empty (hfu.trans hue)
              rw [if_pos hue, lookup_map_update, if_pos rfl, horig]
              unfold firstNonemptyUnit
              rw [List.find?_append, hN]
              by_cases hru : r.unit = "" <;>
                simp [List.find?_cons, hru, Option.or]
            · have hfind : ∃ x, l.find? (fun x => x.name == r.name && !(x.unit == ""))
                  = some x ∧ x.unit = u := by
                unfold firstNonemptyUnit at hfu
                cases hf : l.find? (fun x => x.name == r.name && !(x.unit == "")) with
                | none =>
                    rw [hf] at hfu
                    dsimp only at hfu
                    exact absurd hfu.symm hue
                | some x =>
                    rw [hf] at hfu
                    dsimp only at hfu
                    exact ⟨x, rfl, hfu⟩
              obtain ⟨x, hfx, hxu⟩ := hfind
              rw [if_neg hue, horig]
              unfold firstNonemptyUnit
              rw [List.find?_append, hfx]
              simp [Option.or, hxu]
      · have hbn : (r.name == n) = false := by
          simp only [beq_eq_false_iff_ne, ne_eq]
          exact fun h => hn h.symm
        have hany : ((l ++ [r]).any fun x => x.name == n) =
            l.any (fun x => x.name == n) := by
          simp [hbn]
        have hfnu : firstNonemptyUnit (l ++ [r]) n = firstNonemptyUnit l n := by
          unfold firstNonemptyUnit
          rw [List.find?_append]
          have hNone : List.find? (fun x => x.name == n && !(x.unit == "")) [r]
              = none := by
            simp [List.find?_cons, hbn]
          rw [hNone, Option.or_none]
        have hLHS : List.lookup n
            (match List.lookup r.name (buildUnitMap l) with
              | none => buildUnitMap l ++ [(r.name, r.unit)]
              | some u =>
                  if u = "" then
                    (buildUnitMap l).map fun p =>
                      if p.1 = r.name then (p.1, r.unit) else p
                  else buildUnitMap l) = List.lookup n (buildUnitMap l) := by
          cases hlook : List.lookup r.name (buildUnitMap l) with
          | none =>
              dsimp only
              rw [lookup_append]
              cases hlk2 : List.lookup n (buildUnitMap l) with
              | some v => rfl
              | none =>
                  have hb2 : (n == r.name) = false := by simp [hn]
                  simp [List.lookup_cons, hb2]
          | some u =>
              dsimp only
              by_cases hue : u = ""
              · rw [if_pos hue, lookup_map_update, if_neg hn]
              · rw [if_neg hue]
        rw [hLHS, hany, hfnu, ih]

/-- Helper lemma: membership in the name-collection fold. -/
theorem mem_firstNames_aux (items : List SensorValue) :
    ∀ (acc : List String) (x : String),
      (x ∈ items.foldl
        (fun ns r => if ns.contains r.name then ns else ns ++ [r.name]) acc) ↔
      x ∈ acc ∨ ∃ r ∈ items, r.name = x := by
  induction items with
  | nil => intro acc x; simp
  | cons r t ih =>
      intro acc x
      rw [List.foldl_cons]
      by_cases hc : acc.contains r.name
      · have hmem : r.name ∈ acc := by simpa using hc
        rw [if_pos hc, ih]
        constructor
        · rintro (h | ⟨r', hr', hn⟩)
          · exact Or.inl h
          · exact Or.inr ⟨r', List.mem_cons_of_mem _ hr', hn⟩
        · rintro (h | ⟨r', hr', hn⟩)
          · exact Or.inl h
          · rcases List.mem_cons.mp hr' with h1 | h1
            · exact Or.inl (by rw [← hn, h1]; exact hmem)
            · exact Or.inr ⟨r', h1, hn⟩
      · rw [if_neg hc, ih]
        constructor
        · rintro (h | ⟨r', hr', hn⟩)
          · rcases List.mem_append.mp h with h1 | h1
            · exact Or.inl h1
            · exact Or.inr ⟨r, List.mem_cons_self r t,
                (List.mem_singleton.mp h1).symm⟩
          · exact Or.inr ⟨r', List.mem_cons_of_mem _ hr', hn⟩
        · rintro (h | ⟨r', hr', hn⟩)
          · exact Or.inl (List.mem_append.mpr (Or.inl h))
          · rcases List.mem_cons.mp hr' with h1 | h1
            · exact Or.inl (List.mem_append.mpr (Or.inr
                (List.mem_singleton.mpr (by rw [← hn, h1]))))
            · exact Or.inr ⟨r', h1, hn⟩

/-- Helper lemma: the names of the response's grouping are exactly the
names occurring among the items. -/
theorem mem_firstNames (items : List SensorValue) (x : String) :
    x ∈ firstNames items ↔ ∃ r ∈ items, r.name = x := by
  unfold firstNames
  rw [mem_firstNames_aux]
  simp

/-- Helper lemma: the name-collection fold keeps the accumulator free of
duplicates. -/
theorem firstNames_nodup_aux (items : List SensorValue) :
    ∀ acc : List String, acc.Nodup →
      (items.foldl
        (fun ns r => if ns.contains r.name then ns else ns ++ [r.name]) acc).Nodup := by
  induction items with
  | nil => intro acc h; simpa
  | cons r t ih =>
      intro acc h
      rw [List.foldl_cons]
      by_cases hc : acc.contains r.name
      · rw [if_pos hc]; exact ih acc h
      · rw [if_neg hc]
        refine ih _ ?_
        have hnot : r.name ∉ acc := by simpa using hc
        simp [List.nodup_append, h, hnot]

/-- Helper lemma: each sensor name appears at most once in the grouping. -/
theorem firstNames_nodup (items : List SensorValue) :
    (firstNames items).Nodup :=
  firstNames_nodup_aux items [] List.nodup_nil

/-- Helper lemma: the retention test of `sensorData` — some traffic-count
or speed record bears the name — is classification of some record bearing
the name. -/
theorem sensorData_name_pred (items : List SensorValue) (n : String) :
    ((trafficCountSensors items).any (fun tc => tc.name == n) ||
      (speedSensors items).any (fun ss => ss.name == n)) =
      items.any (fun r => r.name == n &&
        (isTrafficCountSensor r || isSpeedSensor r)) := by
  rw [Bool.eq_iff_iff]
  simp only [Bool.or_eq_true, List.any_eq_true, trafficCountSensors, speedSensors,
    List.mem_filter, Bool.and_eq_true]
  constructor
  · rintro (⟨tc, ⟨hm, ht⟩, hname⟩ | ⟨ss, ⟨hm, hs⟩, hname⟩)
    · exact ⟨tc, hm, hname, Or.inl ht⟩
    · exact ⟨ss, hm, hname, Or.inr hs⟩
  · rintro ⟨r, hm, hname, ht | hs⟩
    · exact Or.inl ⟨r, ⟨hm, ht⟩, hname⟩
    · exact Or.inr ⟨r, ⟨hm, hs⟩, hname⟩

/-- Records of the claim C6 counterexample: two readings of one speed
sensor, the first with an empty unit string. -/
def sv1 : SensorValue :=
  ⟨"KESKINOPEUS_5MIN", "", some 50, ⟨2024, 4, 1, 10⟩, none, "a1"⟩

/-- Second record of the claim C6 counterexample, bearing the same name
with unit km/h. -/
def sv2 : SensorValue :=
  ⟨"KESKINOPEUS_5MIN", "km/h", some 60, ⟨2024, 4, 1, 11⟩, none, "a2"⟩

/-- Counterexample to claim C6 as stated: with these two records, the
retained sensorData entry's unit is km/h, while the first fetched record
bearing the name has the (different) empty unit — the loop overwrites a
falsy unit entry, so the unit is not always that of the first record
bearing the name. -/
theorem sensorData_unit_not_first_record :
    ((sensorData [sv1, sv2]).map fun e => e.unit) = ["km/h"] ∧
    (([sv1, sv2].find? fun r => r.name == "KESKINOPEUS_5MIN").map
      fun r => r.unit) = some "" ∧
    ¬ ("km/h" = "") := by
  refine ⟨by with_unfolding_all rfl, rfl, by decide⟩

/-- Claim C6 amended: sensorData contains exactly the sensor names with
at least one record classified traffic-count (name contains OHITUKSET
and unit is exactly kpl/h) or average-speed (name contains KESKINOPEUS
and unit is exactly km/h), each name once, in first-occurrence order; a
retained entry's unit is the unit of the first fetched record bearing
that name whose unit is nonempty (the empty string if every one is
empty). -/
theorem sensorData_names_units (items : List SensorValue) :
    ((sensorData items).map fun e => e.name) =
      (firstNames items).filter
        (fun n => items.any fun r => r.name == n &&
          (isTrafficCountSensor r || isSpeedSensor r)) ∧
    ((sensorData items).map fun e => e.name).Nodup ∧
    (∀ n : String, n ∈ firstNames items ↔ ∃ r ∈ items, r.name = n) ∧
    ((sensorData items).map fun e => e.unit) =
      (sensorData items).map fun e => firstNonemptyUnit items e.name := by
  have hnames : ((sensorData items).map fun e => e.name) =
      (firstNames items).filter
        (fun n => items.any fun r => r.name == n &&
          (isTrafficCountSensor r || isSpeedSensor r)) := by
    unfold sensorData hourlyAveragesByName
    rw [List.filter_map, List.map_map]
    have hcomp : ((fun e : SensorEntry => e.name) ∘ fun n =>
        (⟨n, unitMapAt items n, sensorHourlyData items n⟩ : SensorEntry)) = id := rfl
    rw [hcomp, List.map_id]
    have hpred : ((fun s : SensorEntry =>
        (trafficCountSensors items).any (fun tc => tc.name == s.name) ||
          (speedSensors items).any (fun ss => ss.name == s.name)) ∘ fun n =>
        (⟨n, unitMapAt items n, sensorHourlyData items n⟩ : SensorEntry)) =
        fun n => items.any fun r => r.name == n &&
          (isTrafficCountSensor r || isSpeedSensor r) := by
      funext n
      exact sensorData_name_pred items n
    rw [hpred]
  refine ⟨hnames, ?_, fun n => mem_firstNames items n, ?_⟩
  · rw [hnames]
    exact List.Nodup.filter _ (firstNames_nodup items)
  · apply List.map_congr_left
    intro e he
    obtain ⟨hunit, -⟩ := mem_hourlyAveragesByName (mem_sensorData_mem_av he)
    rw [hunit]
    have hp := (List.mem_filter.mp he).2
    rw [sensorData_name_pred] at hp
    have hany : (items.any fun r => r.name == e.name) = true := by
      simp only [List.any_eq_true, Bool.and_eq_true] at hp ⊢
      obtain ⟨r, hm, hname, -⟩ := hp
      exact ⟨r, hm, hname⟩
    unfold unitMapAt
    rw [lookup_buildUnitMap, if_pos hany]
    rfl

/-! ## The trailing one-month window (claim C9) -/

/-- Modelled from the claim's words (not from the source): the calendar
date exactly one calendar month before (y, m0, d), i.e. the same
day-of-month in the previous month, which does not exist when the
previous month is shorter. -/
def oneCalendarMonthBefore (y m0 d : Nat) : Option (Nat × Nat × Nat) :=
  let p := if m0 = 0 then (y - 1, 11) else (y, m0 - 1)
  if d ≤ daysInMonth p.1 p.2 then some (p.1, p.2, d) else none

/-- Counterexample to claim C9 as stated: for "now" on March 31, 2024,
the handler's period start is March 2, 2024 — a date in the same month as
today — while the calendar date exactly one calendar month before
March 31 does not exist (February 2024 has 29 days), because JavaScript
`setMonth` rolls the day overflow forward. -/
theorem period_start_not_one_month_before :
    startDateStr ⟨2024, 2, 31, 12⟩ = "2024-03-02" ∧
    prevMonthDate 2024 2 31 = (2024, 2, 2) ∧
    oneCalendarMonthBefore 2024 2 31 = none := by
  refine ⟨by decide, by decide, by decide⟩

set_option maxHeartbeats 2000000 in
/-- Helper lemma: the JavaScript month-decrement lands exactly the length
of the previous month before today, measured in days on the civil
calendar. -/
theorem prevMonthDate_shift (y m0 d : Nat) (hy : 1 ≤ y) (hm : m0 ≤ 11)
    (hd1 : 1 ≤ d) (hd2 : d ≤ daysInMonth y m0) :
    rataDie y (m0 + 1) d =
      rataDie (prevMonthDate y m0 d).1 ((prevMonthDate y m0 d).2.1 + 1)
        (prevMonthDate y m0 d).2.2 +
      daysInMonth (if m0 = 0 then y - 1 else y)
        (if m0 = 0 then 11 else m0 - 1) := by
  interval_cases m0 <;>
    (unfold prevMonthDate
     norm_num [daysInMonth] at hd2 ⊢
     split_ifs at hd2 ⊢ <;> (try dsimp only) <;>
       (simp only [rataDie]; split_ifs <;> omega))

/-- Claim C9 amended: on the success path, the response's period runs
from today's date with the month decremented under JavaScript `setMonth`
normalization (a day overflowing the shorter previous month rolls
forward into the following month, e.g. March 31 to March 2/3) to today's
date; in terms of civil-calendar day counts the start is exactly the
previous month's length of days before today; and the store query's
bounding keys are built from exactly these two date strings. -/
theorem trailing_window_amended (event : APIEvent) (env : Env) (store : Store)
    (now : UTCTime) (sid tn : String) (items : List SensorValue)
    (hm : event.httpMethod ≠ "OPTIONS") (hsid : event.stationId = some sid)
    (htn : env.tableName = some tn)
    (hfetch : fetchPages (store.table.length + 1) store (startKeyStr sid now)
      (endKeyStr sid now) none 1 = Except.ok items)
    (hy : 1 ≤ now.year) (hm11 : now.month ≤ 11) (hd1 : 1 ≤ now.day)
    (hd2 : now.day ≤ daysInMonth now.year now.month) :
    handler event env store now = ⟨200, .success
      ⟨sid, startDateStr now, endDateStr now,
       hourlyData items, sensorData items⟩⟩ ∧
    startDateStr now =
      isoDate (prevMonthDate now.year now.month now.day).1
        (prevMonthDate now.year now.month now.day).2.1
        (prevMonthDate now.year now.month now.day).2.2 ∧
    endDateStr now = isoDate now.year now.month now.day ∧
    startKeyStr sid now = sid ++ "#" ++ startDateStr now ++ "T00:00:00.000Z" ∧
    endKeyStr sid now = sid ++ "#" ++ endDateStr now ++ "T23:59:59.999Z" ∧
    rataDie now.year (now.month + 1) now.day =
      rataDie (prevMonthDate now.year now.month now.day).1
        ((prevMonthDate now.year now.month now.day).2.1 + 1)
        (prevMonthDate now.year now.month now.day).2.2 +
      daysInMonth (if now.month = 0 then now.year - 1 else now.year)
        (if now.month = 0 then 11 else now.month - 1) := by
  refine ⟨?_, rfl, rfl, rfl, rfl,
    prevMonthDate_shift now.year now.month now.day hy hm11 hd1 hd2⟩
  unfold handler
  rw [if_neg hm, hsid, htn]
  dsimp only
  rw [hfetch]

/-- Witness for the amended claim C9 at "now" March 31, 2024: an empty
store yields a 200 response whose period starts on 2024-03-02, exactly 29
days (the length of February 2024) before 2024-03-31. -/
theorem trailing_window_amended_witness :
    handler ⟨"GET", some "1001"⟩ ⟨some "T"⟩ ⟨[], 2, none⟩ ⟨2024, 2, 31, 12⟩ =
      ⟨200, .success ⟨"1001", "2024-03-02", "2024-03-31",
        hourlyData [], sensorData []⟩⟩ ∧
    rataDie 2024 3 31 = rataDie 2024 3 2 + 29 := by
  have h := trailing_window_amended ⟨"GET", some "1001"⟩ ⟨some "T"⟩ ⟨[], 2, none⟩
    ⟨2024, 2, 31, 12⟩ "1001" "T" [] (by decide) rfl rfl rfl (by decide)
    (by decide) (by decide) (by decide)
  refine ⟨h.1.trans ?_, h.2.2.2.2.2.trans (by decide)⟩
  have hs : startDateStr ⟨2024, 2, 31, 12⟩ = "2024-03-02" := by decide
  have he : endDateStr ⟨2024, 2, 31, 12⟩ = "2024-03-31" := by decide
  rw [hs, he]

/-! ## Paginated fetch completeness (claim C1) -/

/-- Helper lemma: on a strictly key-sorted list, filtering for keys
strictly above the key at index `i` drops exactly the first `i + 1`
elements. -/
theorem filter_key_gt_of_sorted :
    ∀ (L : List SensorValue),
      L.Pairwise (fun a b => a.compositeKey < b.compositeKey) →
      ∀ (i : Nat) (hi : i < L.length),
        L.filter (fun r =>
          decide ((L.get ⟨i, hi⟩).compositeKey < r.compositeKey)) =
          L.drop (i + 1) := by
  intro L
  induction L with
  | nil => intro _ i hi; exact absurd hi (Nat.not_lt_zero i)
  | cons a t ih =>
      intro hp i hi
      obtain ⟨ha, ht⟩ := List.pairwise_cons.mp hp
      cases i with
      | zero =>
          have hget0 : (a :: t).get ⟨0, hi⟩ = a := rfl
          rw [hget0, List.filter_cons,
            if_neg (by simp only [decide_eq_true_eq]; exact lt_irrefl _)]
          have : ∀ x ∈ t, (decide (a.compositeKey < x.compositeKey)) = true := by
            intro x hx
            simp only [decide_eq_true_eq]
            exact ha x hx
          rw [List.filter_eq_self.mpr this]
          rfl
      | succ j =>
          have hj : j < t.length := Nat.lt_of_succ_lt_succ hi
          have hget : (a :: t).get ⟨j + 1, hi⟩ = t.get ⟨j, hj⟩ := rfl
          have hmem : t.get ⟨j, hj⟩ ∈ t := List.get_mem t j hj
          have hlt : a.compositeKey < (t.get ⟨j, hj⟩).compositeKey := ha _ hmem
          rw [hget, List.filter_cons,
            if_neg (by
              simp only [decide_eq_true_eq]
              exact fun h => absurd (lt_trans hlt h) (lt_irrefl _))]
          exact ih ht j hj

/-- Helper lemma: the last element of a truncated page is the element at
index `pageSize - 1`. -/
theorem getLast?_take_page {L : List SensorValue} {p : Nat} (hp : 1 ≤ p)
    (hle : p ≤ L.length) :
    (L.take p).getLast? = some (L.get ⟨p - 1, by omega⟩) := by
  rw [List.getLast?_eq_getElem?]
  have hlen : (L.take p).length = p := by
    rw [List.length_take]; omega
  rw [hlen, List.getElem?_take_of_lt (by omega), List.getElem?_eq_getElem (by omega)]
  rfl

/-- Helper lemma: the pagination loop on a failure-free store with a
strictly key-sorted partition returns, from any continuation token,
exactly the in-range records situated after the token, for every page
size, given fuel exceeding the number of pending records. -/
theorem fetchPages_go (table : List SensorValue) (sk ek : String) (p : Nat)
    (hp : 1 ≤ p)
    (hsort : table.Pairwise (fun a b => a.compositeKey < b.compositeKey)) :
    ∀ (fuel : Nat) (esk : Option String) (pageNo : Nat),
      ((table.filter (keyInRange sk ek)).filter (afterKey esk)).length < fuel →
      fetchPages fuel ⟨table, p, none⟩ sk ek esk pageNo =
        .ok ((table.filter (keyInRange sk ek)).filter (afterKey esk)) := by
  intro fuel
  induction fuel with
  | zero => intro esk pageNo h; exact absurd h (Nat.not_lt_zero _)
  | succ f ih =>
      intro esk pageNo hlen
      have hRsort : (table.filter (keyInRange sk ek)).Pairwise
          (fun a b => a.compositeKey < b.compositeKey) := hsort.filter _
      have hPsort : ((table.filter (keyInRange sk ek)).filter
          (afterKey esk)).Pairwise
          (fun a b => a.compositeKey < b.compositeKey) := hRsort.filter _
      simp only [fetchPages, queryPage]
      rw [if_neg (by simp)]
      by_cases hle : ((table.filter (keyInRange sk ek)).filter
          (afterKey esk)).length ≤ p
      · rw [if_pos hle]
      · rw [if_neg hle]
        have hple : p ≤ ((table.filter (keyInRange sk ek)).filter
            (afterKey esk)).length := le_of_lt (lt_of_not_le hle)
        rw [getLast?_take_page hp hple]
        dsimp only
        have hbmem : ((table.filter (keyInRange sk ek)).filter
            (afterKey esk)).get ⟨p - 1, by omega⟩ ∈
            (table.filter (keyInRange sk ek)).filter (afterKey esk) :=
          List.get_mem _ _ _
        have hglobal : (fun a => afterKey (some
            (((table.filter (keyInRange sk ek)).filter
              (afterKey esk)).get ⟨p - 1, by omega⟩).compositeKey) a &&
            afterKey esk a) = afterKey (some
            (((table.filter (keyInRange sk ek)).filter
              (afterKey esk)).get ⟨p - 1, by omega⟩).compositeKey) := by
          funext a
          cases esk with
          | none => simp [afterKey]
          | some k0 =>
              have hb : afterKey (some k0)
                  (((table.filter (keyInRange sk ek)).filter
                    (afterKey (some k0))).get ⟨p - 1, by omega⟩) = true :=
                (List.mem_filter.mp hbmem).2
              simp only [afterKey, decide_eq_true_eq] at hb
              simp only [afterKey]
              by_cases hba : (((table.filter (keyInRange sk ek)).filter
                  (afterKey (some k0))).get ⟨p - 1, by omega⟩).compositeKey <
                  a.compositeKey
              · rw [decide_eq_true hba, decide_eq_true (lt_trans hb hba)]
                rfl
              · rw [decide_eq_false hba, Bool.false_and]
        have hnext : (table.filter (keyInRange sk ek)).filter (afterKey (some
            (((table.filter (keyInRange sk ek)).filter
              (afterKey esk)).get ⟨p - 1, by omega⟩).compositeKey)) =
            ((table.filter (keyInRange sk ek)).filter (afterKey esk)).drop p := by
          rw [← hglobal, ← List.filter_filter]
          have hfn : afterKey (some
              (((table.filter (keyInRange sk ek)).filter
                (afterKey esk)).get ⟨p - 1, by omega⟩).compositeKey) =
              fun r => decide ((((table.filter (keyInRange sk ek)).filter
                (afterKey esk)).get ⟨p - 1, by omega⟩).compositeKey <
                r.compositeKey) := rfl
          rw [hfn, filter_key_gt_of_sorted _ hPsort (p - 1) (by omega)]
          congr 1
          omega
        have hrec := ih (some
            (((table.filter (keyInRange sk ek)).filter
              (afterKey esk)).get ⟨p - 1, by omega⟩).compositeKey)
          (pageNo + 1) (by
            rw [hnext, List.length_drop]
            omega)
        rw [hnext] at hrec
        simp only [Option.map_some']
        rw [hrec]
        dsimp only
        rw [List.take_append_drop]

/-- Claim C1: for every station partition with strictly increasing
composite keys, every key window and every store page size, the
pagination loop that re-issues the range query with the returned
continuation token until none is returned produces exactly the in-range
records, in order. -/
theorem fetchPages_complete (table : List SensorValue) (sk ek : String)
    (p : Nat) (hp : 1 ≤ p)
    (hsort : table.Pairwise (fun a b => a.compositeKey < b.compositeKey)) :
    fetchPages (table.length + 1) ⟨table, p, none⟩ sk ek none 1 =
      .ok (table.filter (keyInRange sk ek)) := by
  have hid : (table.filter (keyInRange sk ek)).filter (afterKey none) =
      table.filter (keyInRange sk ek) :=
    List.filter_eq_self.mpr (fun _ _ => rfl)
  have h := fetchPages_go table sk ek p hp hsort (table.length + 1) none 1
    (by rw [hid]; exact Nat.lt_succ_of_le (List.length_filter_le _ _))
  rw [hid] at h
  exact h

/-- Record constructor for the claim C1 witness: a record carrying only a
composite key. -/
def wkey (k : String) : SensorValue :=
  ⟨"s", "u", none, ⟨2024, 0, 1, 0⟩, none, k⟩

/-- Partition of five key-sorted records for the claim C1 witness. -/
def tbl5 : List SensorValue :=
  [wkey "a", wkey "b", wkey "c", wkey "d", wkey "e"]

/-- Witness for claim C1: with page size 2 (three store round trips), the
pagination loop returns all five records of the window. -/
theorem fetchPages_complete_witness :
    fetchPages 6 ⟨tbl5, 2, none⟩ "a" "e" none 1 = .ok tbl5 := by
  have h := fetchPages_complete tbl5 "a" "e" 2 (by decide)
    (by with_unfolding_all decide)
  exact h.trans (by with_unfolding_all rfl)

end TrafficStats
